import Mathlib

/-!
Verification of the wilayah-aceh-etl administrative-hierarchy engine.

Shallow embedding of the repository's core logic:
* `transformProperties` — the code-derivation function (identical in both
  server files), over a JS-value model where a missing feature property is
  the `undefined` value (string interpolation renders it as "undefined",
  and calling slice on it throws).
* `upsert_wilayah` / `upsertFeaturePg` — the SQL upsert function from
  init_db.sql and the inline SQL issued by the newer server's Postgres
  branch.  The store is a list of rows; ON CONFLICT on the primary key is
  modelled as updating every row carrying the conflicting key (under the
  primary-key invariant there is at most one).
* `fetchGeoData` / `get_wilayah_by_level` — the level-filtered prefix
  fetches of the newer server (Postgres branch) and of the SQL RPC.
  SQL LIKE with a 'pat%' pattern is modelled as string-prefix matching
  on the pattern (identifiers and query codes are digits and dots, so
  LIKE metacharacters do not arise).
* `compose001` / `plan001` — the newer server's /api/db/geojson route:
  the bundle it assembles from a given store, and the list of
  (level, code) fetches it issues.  `compose000` / `plan000` — the same
  route in the older server file, which distinguishes exact matches
  (self and parent context) from separator-suffixed prefix matches
  (children).
* `composePg` / `composeSb` — the same route over a fallible store call
  (the Postgres branch awaits each query and a rejection propagates to
  the route's catch; the Supabase branch turns an RPC error object into
  an empty row list and continues).
* `searchPg` / `search_wilayah` / `apiSearch` — the /api/search route and
  the search RPC; ORDER BY is modelled as a deterministic stable
  insertion sort on (level, name), LIMIT as take.
-/

namespace WilayahAceh

/-- A JavaScript value read from a raw feature's property bag: a missing
property is the `undefined` value, a present one is a string. -/
inductive JSVal where
  | undef : JSVal
  | str : String → JSVal
deriving DecidableEq, Repr

/-- JS template-literal rendering: interpolating `undefined` yields the
text "undefined". -/
def JSVal.toStr : JSVal → String
  | .undef => "undefined"
  | .str s => s

/-- The property bag of a raw GeoJSON feature; key names vary by level. -/
structure RawProps where
  kd_propinsi : JSVal
  nm_propinsi : JSVal
  kd_dati2 : JSVal
  nm_dati2 : JSVal
  kd_kecamatan : JSVal
  nm_kecamatan : JSVal
  kd_kelurahan : JSVal
  nm_kelurahan : JSVal
deriving DecidableEq, Repr

/-- JS `s.slice(-2)`: the last two characters (the whole string when it is
shorter than two characters). -/
def last2 (s : String) : String := s.drop (s.length - 2)

/-- `transformProperties(feature, level)` from both server files (their
bodies are identical).  Levels 3 and 4 call `.slice` on the raw
third-level code, which throws a TypeError when that property is missing;
this is the `.error ()` case.  An unhandled level leaves `kode`/`nama` at
their initial empty strings. -/
def transformProperties (p : RawProps) (level : Int) : Except Unit (JSVal × JSVal) :=
  if level = 1 then
    .ok (p.kd_propinsi, p.nm_propinsi)
  else if level = 2 then
    .ok (.str (p.kd_propinsi.toStr ++ "." ++ p.kd_dati2.toStr), p.nm_dati2)
  else if level = 3 then
    match p.kd_kecamatan with
    | .undef => .error ()
    | .str s =>
        .ok (.str (p.kd_propinsi.toStr ++ "." ++ p.kd_dati2.toStr ++ "." ++ last2 s),
          p.nm_kecamatan)
  else if level = 4 then
    match p.kd_kecamatan with
    | .undef => .error ()
    | .str s =>
        .ok (.str (p.kd_propinsi.toStr ++ "." ++ p.kd_dati2.toStr ++ "." ++ last2 s
            ++ "." ++ ("2" ++ p.kd_kelurahan.toStr)),
          p.nm_kelurahan)
  else
    .ok (.str "", .str "")

/-- One stored row of m_wilayah_poligon.  `geometry` is the stored
(already simplified) geometry, kept abstract as a string. -/
structure Row where
  kode : String
  nama : String
  level : Int
  geometry : String
  createdAt : Nat
  updatedAt : Nat
deriving DecidableEq, Repr

/-- The stored identifiers, in store order. -/
def keys (st : List Row) : List String := st.map Row.kode

/-- Row lookup by identifier (the primary key). -/
def getRow (st : List Row) (k : String) : Option Row :=
  st.find? (fun r => r.kode == k)

/-- Whether an identifier is already present (the ON CONFLICT test). -/
def hasKode (st : List Row) (k : String) : Bool :=
  st.any (fun r => r.kode == k)

/-- The DO UPDATE SET clause applied to one row: overwrite name, geometry
and updatedAt; keep kode, level and createdAt. -/
def updRow (normGeom : String → String) (now : Nat) (k n g : String) (r : Row) : Row :=
  if r.kode == k then ⟨r.kode, n, r.level, normGeom g, r.createdAt, now⟩ else r

/-- upsert_wilayah from init_db.sql (also the body the Supabase RPC runs):
INSERT ... ON CONFLICT (kode) DO UPDATE SET nama, geometry, updated_at.
`normGeom` stands for the PostGIS pipeline
ST_Multi(ST_SimplifyPreserveTopology(ST_Force2D(ST_GeomFromGeoJSON _), 0.0001)).
On insert, created_at takes its column default (the current time); the
kode column is the primary key, so the conflict row is the one carrying
the same kode. -/
def upsert_wilayah (normGeom : String → String) (now : Nat) (k n : String) (lvl : Int)
    (g : String) (st : List Row) : List Row :=
  if hasKode st k then
    st.map (updRow normGeom now k n g)
  else
    st ++ [⟨k, n, lvl, normGeom g, now, now⟩]

/-- The inline SQL issued by upsertFeature's Postgres branch in the newer
server file — the same INSERT ... ON CONFLICT statement. -/
def upsertFeaturePg (normGeom : String → String) (now : Nat) (k n : String) (lvl : Int)
    (g : String) (st : List Row) : List Row :=
  if hasKode st k then
    st.map (updRow normGeom now k n g)
  else
    st ++ [⟨k, n, lvl, normGeom g, now, now⟩]

/-- A derived feature ready for ingestion: identifier, display name, raw
geometry. -/
structure Feat where
  kode : String
  nama : String
  geometry : String
deriving DecidableEq, Repr

/-- The sync loop: one upsert per feature, in batch order, all at the
detected level. -/
def ingest (normGeom : String → String) (now : Nat) (lvl : Int) (b : List Feat)
    (st : List Row) : List Row :=
  b.foldl (fun s f => upsert_wilayah normGeom now f.kode f.nama lvl f.geometry s) st

/-- The columns selected by the map fetches: id, name, geometry. -/
structure GeoRow where
  id : String
  name : String
  geom : String
deriving DecidableEq, Repr

def toGeoRow (r : Row) : GeoRow := ⟨r.kode, r.nama, r.geometry⟩

/-- SQL LIKE 'p%' on identifiers (digits and dots only, so no LIKE
metacharacters): string-prefix comparison. -/
def strIsPfxOf (p s : String) : Bool := p.toList.isPrefixOf s.toList

/-- fetchGeoData's Postgres branch in the newer server file:
SELECT ... WHERE level = $1 AND kode LIKE $2 with pattern codePrefix%. -/
def fetchGeoData (st : List Row) (targetLevel : Int) (parentCode : String) : List GeoRow :=
  (st.filter (fun r => r.level == targetLevel && strIsPfxOf parentCode r.kode)).map toGeoRow

/-- get_wilayah_by_level from init_db.sql (the Supabase RPC):
level = p_level AND (p_parent_code IS NULL OR kode LIKE p_parent_code || '%'). -/
def get_wilayah_by_level (st : List Row) (p_level : Int) (p_parent_code : Option String) :
    List GeoRow :=
  (st.filter (fun r => r.level == p_level &&
    (match p_parent_code with
     | none => true
     | some c => strIsPfxOf c r.kode))).map toGeoRow

/-- The columns selected by /api/search and by search_wilayah. -/
structure SearchRow where
  id : String
  name : String
  level : Int
deriving DecidableEq, Repr

/-- Whether `needle` occurs as a contiguous substring of `hay`
(SQL LIKE with a pattern wrapped in percent signs on both sides). -/
def containsSub : List Char → List Char → Bool
  | [], needle => needle.isEmpty
  | h :: t, needle => needle.isPrefixOf (h :: t) || containsSub t needle

def strContains (hay needle : String) : Bool := containsSub hay.toList needle.toList

/-- ORDER BY level ASC, nama ASC as a boolean comparison on rows. -/
def rowLe (a b : Row) : Bool :=
  a.level < b.level || (a.level == b.level && decide (a.nama ≤ b.nama))

/-- Stable insertion into a sorted list. -/
def insertOrdered (r : Row) : List Row → List Row
  | [] => [r]
  | x :: xs => if rowLe r x then r :: x :: xs else x :: insertOrdered r xs

/-- Deterministic stable sort modelling the SQL ORDER BY. -/
def sortRows (l : List Row) : List Row := l.foldr insertOrdered []

/-- The /api/search SQL of the newer server's Postgres branch:
lower(nama) LIKE a pattern wrapping the lowered query text in percent
signs, ORDER BY level, nama, LIMIT 10, selecting (id, name, level). -/
def searchPg (st : List Row) (q : String) : List SearchRow :=
  ((sortRows (st.filter (fun r => strContains r.nama.toLower q.toLower))).take 10).map
    (fun r => ⟨r.kode, r.nama, r.level⟩)

/-- search_wilayah from init_db.sql (the Supabase search RPC): the same
filter, ordering, limit and selected columns. -/
def search_wilayah (st : List Row) (p_query : String) : List SearchRow :=
  ((sortRows (st.filter (fun r => strContains r.nama.toLower p_query.toLower))).take 10).map
    (fun r => ⟨r.kode, r.nama, r.level⟩)

/-- The /api/search route: a missing query string (`none`) and an empty
string are both falsy, and any string shorter than 3 characters is
gated, so the store is queried only for present queries of length at
least 3.  The boolean records whether a store query was issued. -/
def apiSearch (st : List Row) (q : Option String) : List SearchRow × Bool :=
  match q with
  | none => ([], false)
  | some s => if s.length < 3 then ([], false) else (searchPg st s, true)

/-- The per-request result bundle of /api/db/geojson: one optional
feature-collection slot per hierarchy level (a slot is `none` when its
fetch returned no rows or was never issued). -/
structure Bundle where
  provinsi : Option (List GeoRow)
  kabupaten : Option (List GeoRow)
  kecamatan : Option (List GeoRow)
  kelurahan : Option (List GeoRow)
deriving DecidableEq, Repr

def emptyBundle : Bundle := ⟨none, none, none, none⟩

/-- A slot is populated only when the fetch produced at least one row. -/
def toSlot (rows : List GeoRow) : Option (List GeoRow) :=
  if rows.length > 0 then some rows else none

/-- The /api/db/geojson route of the newer server file, over a store:
classify by the raw character length of the query code and fill the
bundle from fetchGeoData calls (all of which are plain prefix matches). -/
def compose001 (st : List Row) (code : String) : Bundle :=
  let n := code.length
  if n = 2 then
    ⟨toSlot (fetchGeoData st 1 code), toSlot (fetchGeoData st 2 code), none, none⟩
  else if n = 5 then
    ⟨none, toSlot (fetchGeoData st 2 code), toSlot (fetchGeoData st 3 code),
      toSlot (fetchGeoData st 4 code)⟩
  else if n = 8 then
    ⟨none, toSlot (fetchGeoData st 2 (code.take 5)), toSlot (fetchGeoData st 3 code),
      toSlot (fetchGeoData st 4 code)⟩
  else if 13 ≤ n then
    ⟨none, none, toSlot (fetchGeoData st 3 (code.take 8)), toSlot (fetchGeoData st 4 code)⟩
  else
    emptyBundle

/-- The (level, code) arguments of the fetchGeoData calls the newer
server's route issues for a given query code, in source order. -/
def plan001 (code : String) : List (Int × String) :=
  let n := code.length
  if n = 2 then [(1, code), (2, code)]
  else if n = 5 then [(2, code), (3, code), (4, code)]
  else if n = 8 then [(2, code.take 5), (3, code), (4, code)]
  else if 13 ≤ n then [(3, code.take 8), (4, code)]
  else []

/-- How a query in the older server file matches the key column: `=` for
self and parent-context lookups, LIKE with the pattern code ++ "." ++
percent for children lookups. -/
inductive MatchKind where
  | exact : MatchKind
  | like : MatchKind
deriving DecidableEq, Repr

def rowMatches (k : MatchKind) (pat : String) (r : Row) : Bool :=
  match k with
  | .exact => r.kode == pat
  | .like => strIsPfxOf pat r.kode

/-- One SELECT of the older server's route: level filter plus the branch's
match kind, selecting (id, name, geom). -/
def fetch000 (st : List Row) (lvl : Int) (k : MatchKind) (pat : String) : List GeoRow :=
  (st.filter (fun r => r.level == lvl && rowMatches k pat r)).map toGeoRow

/-- The /api/db/geojson route of the older server file: self and context
are exact matches, children are prefix matches on code ++ ".". -/
def compose000 (st : List Row) (code : String) : Bundle :=
  let n := code.length
  if n = 2 then
    ⟨toSlot (fetch000 st 1 .exact code), toSlot (fetch000 st 2 .like (code ++ ".")), none, none⟩
  else if n = 5 then
    ⟨none, toSlot (fetch000 st 2 .exact code), toSlot (fetch000 st 3 .like (code ++ ".")),
      toSlot (fetch000 st 4 .like (code ++ "."))⟩
  else if n = 8 then
    ⟨none, toSlot (fetch000 st 2 .exact (code.take 5)), toSlot (fetch000 st 3 .exact code),
      toSlot (fetch000 st 4 .like (code ++ "."))⟩
  else if 13 ≤ n then
    ⟨none, none, toSlot (fetch000 st 3 .exact (code.take 8)),
      toSlot (fetch000 st 4 .exact code)⟩
  else
    emptyBundle

/-- The (level, match kind, pattern) of the queries the older server's
route issues for a given query code, in source order. -/
def plan000 (code : String) : List (Int × MatchKind × String) :=
  let n := code.length
  if n = 2 then [(1, .exact, code), (2, .like, code ++ ".")]
  else if n = 5 then [(2, .exact, code), (3, .like, code ++ "."), (4, .like, code ++ ".")]
  else if n = 8 then
    [(2, .exact, code.take 5), (3, .exact, code), (4, .like, code ++ ".")]
  else if 13 ≤ n then [(3, .exact, code.take 8), (4, .exact, code)]
  else []

/-- Unwrapping a fallible fetch the way the Supabase branch of
fetchGeoData does: an RPC error object is logged and becomes an empty row
list, so the route continues. -/
def sbRows (r : Except Unit (List GeoRow)) : List GeoRow :=
  match r with
  | .error _ => []
  | .ok rows => rows

/-- The newer server's /api/db/geojson route in Postgres mode, where each
store call is a fallible awaited query: a rejected query propagates out of
the handler's try block (the route then answers 500 "Database error"),
modelled by the Except error short-circuiting the remaining fetches. -/
def composePg (fetch : Int → String → Except Unit (List GeoRow)) (code : String) :
    Except Unit Bundle :=
  let n := code.length
  if n = 2 then do
    let prov ← fetch 1 code
    let kab ← fetch 2 code
    pure ⟨toSlot prov, toSlot kab, none, none⟩
  else if n = 5 then do
    let kab ← fetch 2 code
    let kec ← fetch 3 code
    let kel ← fetch 4 code
    pure ⟨none, toSlot kab, toSlot kec, toSlot kel⟩
  else if n = 8 then do
    let kab ← fetch 2 (code.take 5)
    let kec ← fetch 3 code
    let kel ← fetch 4 code
    pure ⟨none, toSlot kab, toSlot kec, toSlot kel⟩
  else if 13 ≤ n then do
    let kec ← fetch 3 (code.take 8)
    let kel ← fetch 4 code
    pure ⟨none, none, toSlot kec, toSlot kel⟩
  else
    pure emptyBundle

/-- The same route in Supabase mode: each fetch's RPC error object is
absorbed into an empty row list (sbRows), so no individual failure aborts
the composition and the route always answers with a bundle. -/
def composeSb (fetch : Int → String → Except Unit (List GeoRow)) (code : String) : Bundle :=
  let n := code.length
  if n = 2 then
    ⟨toSlot (sbRows (fetch 1 code)), toSlot (sbRows (fetch 2 code)), none, none⟩
  else if n = 5 then
    ⟨none, toSlot (sbRows (fetch 2 code)), toSlot (sbRows (fetch 3 code)),
      toSlot (sbRows (fetch 4 code))⟩
  else if n = 8 then
    ⟨none, toSlot (sbRows (fetch 2 (code.take 5))), toSlot (sbRows (fetch 3 code)),
      toSlot (sbRows (fetch 4 code))⟩
  else if 13 ≤ n then
    ⟨none, none, toSlot (sbRows (fetch 3 (code.take 8))), toSlot (sbRows (fetch 4 code))⟩
  else
    emptyBundle

/-- The bundle slot belonging to a hierarchy level. -/
def slotAt (b : Bundle) (l : Int) : Option (List GeoRow) :=
  if l = 1 then b.provinsi
  else if l = 2 then b.kabupaten
  else if l = 3 then b.kecamatan
  else if l = 4 then b.kelurahan
  else none

/-- A store call that always fails (the database is unreachable). -/
def fetchAllFail : Int → String → Except Unit (List GeoRow) := fun _ _ => .error ()

/-- A store call where only the level-1 query fails and every other level
answers with one row. -/
def fetchOneFail : Int → String → Except Unit (List GeoRow) := fun l _ =>
  if l == 1 then .error () else .ok [⟨"11.01", "ACEH SELATAN", "g"⟩]

/-- The logically observable part of a stored row for idempotence: its
display name and geometry (timestamps excluded). -/
def rowView (r : Row) : String × String := (r.nama, r.geometry)

/-- The last feature of a batch carrying a given identifier (the batch
element whose upsert wins). -/
def lastFeat (k : String) : List Feat → Option Feat
  | [] => none
  | f :: b =>
      match lastFeat k b with
      | some g => some g
      | none => if f.kode == k then some f else none

/-!  Helper lemmas about the store operations. -/

theorem updRow_kode (normGeom : String → String) (now : Nat) (k n g : String) (r : Row) :
    (updRow normGeom now k n g r).kode = r.kode := by
  unfold updRow; split <;> rfl

theorem hasKode_iff (st : List Row) (k : String) : hasKode st k = true ↔ k ∈ keys st := by
  simp [hasKode, keys, List.any_eq_true, List.mem_map]

theorem getRow_none_iff (st : List Row) (k : String) :
    getRow st k = none ↔ hasKode st k = false := by
  simp [getRow, hasKode, List.find?_eq_none, List.any_eq_false]

theorem getRow_kode_eq (st : List Row) (k : String) (r : Row) (h : getRow st k = some r) :
    r.kode = k := by
  have := List.find?_some h
  simpa using this

theorem hasKode_of_getRow_some (st : List Row) (k : String) (r : Row)
    (h : getRow st k = some r) : hasKode st k = true := by
  cases hk : hasKode st k
  · rw [← getRow_none_iff] at hk; rw [h] at hk; cases hk
  · rfl

theorem getRow_upsert_present (normGeom : String → String) (now : Nat) (k n : String)
    (lvl : Int) (g : String) (st : List Row) (r : Row) (h : getRow st k = some r) :
    getRow (upsert_wilayah normGeom now k n lvl g st) k
      = some ⟨r.kode, n, r.level, normGeom g, r.createdAt, now⟩ := by
  have hk : hasKode st k = true := hasKode_of_getRow_some st k r h
  have hrk : (r.kode == k) = true := by simp [getRow_kode_eq st k r h]
  unfold upsert_wilayah
  rw [if_pos hk]
  unfold getRow
  rw [List.find?_map]
  have hpred : ((fun x : Row => x.kode == k) ∘ updRow normGeom now k n g)
      = (fun x : Row => x.kode == k) := by
    funext x; simp [Function.comp, updRow_kode]
  rw [hpred]
  unfold getRow at h
  rw [h]
  simp [updRow, hrk]

theorem upsert_absent (normGeom : String → String) (now : Nat) (k n : String) (lvl : Int)
    (g : String) (st : List Row) (h : hasKode st k = false) :
    upsert_wilayah normGeom now k n lvl g st = st ++ [⟨k, n, lvl, normGeom g, now, now⟩] := by
  simp [upsert_wilayah, h]

theorem getRow_upsert_self_absent (normGeom : String → String) (now : Nat) (k n : String)
    (lvl : Int) (g : String) (st : List Row) (h : getRow st k = none) :
    getRow (upsert_wilayah normGeom now k n lvl g st) k
      = some ⟨k, n, lvl, normGeom g, now, now⟩ := by
  rw [upsert_absent normGeom now k n lvl g st ((getRow_none_iff st k).mp h)]
  unfold getRow at h ⊢
  rw [List.find?_append, h]
  simp [List.find?]

theorem getRow_upsert_ne (normGeom : String → String) (now : Nat) (k n : String) (lvl : Int)
    (g : String) (st : List Row) (k' : String) (hne : k' ≠ k) :
    getRow (upsert_wilayah normGeom now k n lvl g st) k' = getRow st k' := by
  unfold upsert_wilayah
  by_cases hk : hasKode st k
  · rw [if_pos hk]
    unfold getRow
    rw [List.find?_map]
    have hpred : ((fun x : Row => x.kode == k') ∘ updRow normGeom now k n g)
        = (fun x : Row => x.kode == k') := by
      funext x; simp [Function.comp, updRow_kode]
    rw [hpred]
    cases hfind : st.find? (fun x => x.kode == k') with
    | none => rfl
    | some r =>
        have hrk : r.kode = k' := by simpa using List.find?_some hfind
        have hu : updRow normGeom now k n g r = r := by
          simp [updRow, hrk, hne]
        simp [hu]
  · rw [if_neg hk]
    unfold getRow
    rw [List.find?_append]
    cases hfind : st.find? (fun x => x.kode == k') with
    | some r => simp
    | none =>
        have hkk : (k == k') = false := by simpa using Ne.symm hne
        simp [List.find?, hkk]

theorem keys_upsert_has (normGeom : String → String) (now : Nat) (k n : String) (lvl : Int)
    (g : String) (st : List Row) (hk : hasKode st k = true) :
    keys (upsert_wilayah normGeom now k n lvl g st) = keys st := by
  have hcomp : Row.kode ∘ updRow normGeom now k n g = Row.kode := by
    funext r; simp [updRow_kode]
  simp [upsert_wilayah, hk, keys, List.map_map, hcomp]

theorem keys_upsert_not_has (normGeom : String → String) (now : Nat) (k n : String)
    (lvl : Int) (g : String) (st : List Row) (hk : hasKode st k = false) :
    keys (upsert_wilayah normGeom now k n lvl g st) = keys st ++ [k] := by
  simp [upsert_wilayah, hk, keys]

theorem mem_keys_upsert (normGeom : String → String) (now : Nat) (k n : String) (lvl : Int)
    (g : String) (st : List Row) (k' : String) (h : k' ∈ keys st) :
    k' ∈ keys (upsert_wilayah normGeom now k n lvl g st) := by
  cases hk : hasKode st k
  · rw [keys_upsert_not_has normGeom now k n lvl g st hk]; exact List.mem_append_left _ h
  · rw [keys_upsert_has normGeom now k n lvl g st hk]; exact h

theorem self_mem_keys_upsert (normGeom : String → String) (now : Nat) (k n : String)
    (lvl : Int) (g : String) (st : List Row) :
    k ∈ keys (upsert_wilayah normGeom now k n lvl g st) := by
  cases hk : hasKode st k
  · rw [keys_upsert_not_has normGeom now k n lvl g st hk]; simp
  · rw [keys_upsert_has normGeom now k n lvl g st hk]; exact (hasKode_iff st k).mp hk

theorem ingest_cons (normGeom : String → String) (now : Nat) (lvl : Int) (f : Feat)
    (b : List Feat) (st : List Row) :
    ingest normGeom now lvl (f :: b) st
      = ingest normGeom now lvl b (upsert_wilayah normGeom now f.kode f.nama lvl f.geometry st) :=
  rfl

theorem mem_keys_ingest (normGeom : String → String) (now : Nat) (lvl : Int) (b : List Feat)
    (st : List Row) (k : String) (h : k ∈ keys st) :
    k ∈ keys (ingest normGeom now lvl b st) := by
  induction b generalizing st with
  | nil => exact h
  | cons f b ih =>
      rw [ingest_cons]
      exact ih _ (mem_keys_upsert normGeom now f.kode f.nama lvl f.geometry st k h)

theorem batch_mem_keys_ingest (normGeom : String → String) (now : Nat) (lvl : Int)
    (b : List Feat) (st : List Row) :
    ∀ f ∈ b, f.kode ∈ keys (ingest normGeom now lvl b st) := by
  induction b generalizing st with
  | nil => intro f hf; cases hf
  | cons f0 b ih =>
      intro f hf
      rw [ingest_cons]
      rcases List.mem_cons.mp hf with h | h
      · subst h
        exact mem_keys_ingest normGeom now lvl b _ f.kode
          (self_mem_keys_upsert normGeom now f.kode f.nama lvl f.geometry st)
      · exact ih _ f h

theorem length_upsert_has (normGeom : String → String) (now : Nat) (k n : String) (lvl : Int)
    (g : String) (st : List Row) (hk : hasKode st k = true) :
    (upsert_wilayah normGeom now k n lvl g st).length = st.length := by
  simp [upsert_wilayah, hk]

theorem length_ingest_all_mem (normGeom : String → String) (now : Nat) (lvl : Int)
    (b : List Feat) (st : List Row) (h : ∀ f ∈ b, f.kode ∈ keys st) :
    (ingest normGeom now lvl b st).length = st.length := by
  induction b generalizing st with
  | nil => rfl
  | cons f b ih =>
      rw [ingest_cons]
      have hk : hasKode st f.kode = true := (hasKode_iff st f.kode).mpr (h f (by simp))
      rw [ih _ (fun f' hf' =>
        mem_keys_upsert normGeom now f.kode f.nama lvl f.geometry st f'.kode
          (h f' (List.mem_cons_of_mem f hf')))]
      exact length_upsert_has normGeom now f.kode f.nama lvl f.geometry st hk

theorem nodup_keys_upsert (normGeom : String → String) (now : Nat) (k n : String) (lvl : Int)
    (g : String) (st : List Row) (h : (keys st).Nodup) :
    (keys (upsert_wilayah normGeom now k n lvl g st)).Nodup := by
  cases hk : hasKode st k
  · rw [keys_upsert_not_has normGeom now k n lvl g st hk]
    have hnot : k ∉ keys st := fun hmem => by
      rw [(hasKode_iff st k).mpr hmem] at hk; cases hk
    simp [List.nodup_append, h, hnot]
  · rw [keys_upsert_has normGeom now k n lvl g st hk]; exact h

theorem nodup_keys_ingest (normGeom : String → String) (now : Nat) (lvl : Int)
    (b : List Feat) (st : List Row) (h : (keys st).Nodup) :
    (keys (ingest normGeom now lvl b st)).Nodup := by
  induction b generalizing st with
  | nil => exact h
  | cons f b ih =>
      rw [ingest_cons]
      exact ih _ (nodup_keys_upsert normGeom now f.kode f.nama lvl f.geometry st h)

theorem getRow_ingest_view (normGeom : String → String) (now : Nat) (lvl : Int)
    (b : List Feat) (st : List Row) (k : String) :
    (getRow (ingest normGeom now lvl b st) k).map rowView =
      match lastFeat k b with
      | some f => some (f.nama, normGeom f.geometry)
      | none => (getRow st k).map rowView := by
  induction b generalizing st with
  | nil => rfl
  | cons f b ih =>
      rw [ingest_cons, ih]
      cases hl : lastFeat k b with
      | some g => simp [lastFeat, hl]
      | none =>
          simp only [lastFeat, hl]
          by_cases hk : f.kode = k
          · subst hk
            rw [if_pos (by simp)]
            cases hst : getRow st f.kode with
            | some r =>
                rw [getRow_upsert_present normGeom now f.kode f.nama lvl f.geometry st r hst]
                rfl
            | none =>
                rw [getRow_upsert_self_absent normGeom now f.kode f.nama lvl f.geometry st hst]
                rfl
          · rw [if_neg (by simp [hk])]
            rw [getRow_upsert_ne normGeom now f.kode f.nama lvl f.geometry st k (Ne.symm hk)]

/-!  Claim theorems. -/

/-- C1: for every raw feature with present code properties, derive at
level 3 builds the identifier rawTopCode ++ "." ++ rawSecondCode ++ "."
++ (the last 2 characters of the raw third-level code), and at level 4
additionally appends the segment "2" prepended to the raw fourth-level
code; in particular raw third-level codes "0105" and "05" both yield the
segment "05", and raw fourth-level code "003" yields segment "2003". -/
theorem C1_derive_segments (a b c d : String) (n1 n2 n3 n4 : JSVal) :
    transformProperties ⟨.str a, n1, .str b, n2, .str c, n3, .str d, n4⟩ 3
      = .ok (.str (a ++ "." ++ b ++ "." ++ last2 c), n3)
    ∧ transformProperties ⟨.str a, n1, .str b, n2, .str c, n3, .str d, n4⟩ 4
      = .ok (.str (a ++ "." ++ b ++ "." ++ last2 c ++ "." ++ ("2" ++ d)), n4)
    ∧ last2 "0105" = "05" ∧ last2 "05" = "05" ∧ ("2" ++ "003" : String) = "2003" := by
  refine ⟨?_, ?_, by decide, by decide, by decide⟩ <;>
    simp [transformProperties, JSVal.toStr]

/-- C7 counterexample: a level-2 feature whose raw top code is missing
does not derive an empty identifier — the missing property is
interpolated as the text "undefined", giving the non-empty identifier
"undefined.01"; and at level 3 a missing third-level code makes derive
throw rather than produce an empty identifier. -/
theorem C7_cex :
    transformProperties
        ⟨.undef, .undef, .str "01", .str "ACEH SELATAN", .undef, .undef, .undef, .undef⟩ 2
      = .ok (.str "undefined.01", .str "ACEH SELATAN")
    ∧ ("undefined.01" : String) ≠ ""
    ∧ transformProperties
        ⟨.undef, .undef, .str "01", .str "ACEH SELATAN", .undef, .undef, .undef, .undef⟩ 3
      = .error () := by
  refine ⟨rfl, by decide, rfl⟩

/-- C7 (amended): derive is a pure deterministic function of the property
bag and level, but a missing required property never yields an empty
identifier: level 1 returns the undefined value itself, level 2
interpolates the missing top code as the text "undefined" into a
non-empty identifier, a missing third-level code makes levels 3 and 4
throw, and the empty identifier arises exactly for declared levels
outside 1..4. -/
theorem C7_derive_missing_amended (p : RawProps) (lvl : Int) :
    transformProperties p 1 = .ok (p.kd_propinsi, p.nm_propinsi)
    ∧ (p.kd_kecamatan = .undef →
        transformProperties p 3 = .error () ∧ transformProperties p 4 = .error ())
    ∧ (∀ (b : String) (n1 n2 n3 n4 kc kl : JSVal),
        transformProperties ⟨.undef, n1, .str b, n2, kc, n3, kl, n4⟩ 2
          = .ok (.str ("undefined" ++ "." ++ b), n2)
        ∧ ("undefined" ++ "." ++ b : String) ≠ "")
    ∧ (lvl ≠ 1 → lvl ≠ 2 → lvl ≠ 3 → lvl ≠ 4 →
        transformProperties p lvl = .ok (.str "", .str "")) := by
  refine ⟨?_, ?_, ?_, ?_⟩
  · simp [transformProperties]
  · intro h
    constructor <;> simp [transformProperties, h]
  · intro b n1 n2 n3 n4 kc kl
    constructor
    · simp [transformProperties, JSVal.toStr]
    · intro hcontra
      have hlen := congrArg String.length hcontra
      rw [String.length_append, String.length_append] at hlen
      have h9 : ("undefined" : String).length = 9 := rfl
      have hdot : ("." : String).length = 1 := rfl
      have h0 : ("" : String).length = 0 := rfl
      rw [h9, hdot, h0] at hlen
      omega
  · intro h1 h2 h3 h4
    simp [transformProperties, h1, h2, h3, h4]

/-- C7 amended witness at concrete inputs: an all-missing property bag at
levels 1 and 3, a missing top code at level 2, and the unhandled level 0. -/
theorem C7_derive_missing_amended_witness :
    transformProperties ⟨.undef, .undef, .undef, .undef, .undef, .undef, .undef, .undef⟩ 1
      = .ok (.undef, .undef)
    ∧ transformProperties ⟨.undef, .undef, .undef, .undef, .undef, .undef, .undef, .undef⟩ 3
      = .error ()
    ∧ transformProperties ⟨.undef, .undef, .str "01", .undef, .undef, .undef, .undef, .undef⟩ 2
      = .ok (.str ("undefined" ++ "." ++ "01"), .undef)
    ∧ transformProperties ⟨.undef, .undef, .undef, .undef, .undef, .undef, .undef, .undef⟩ 0
      = .ok (.str "", .str "") := by
  obtain ⟨h1, h34, hl2, hother⟩ := C7_derive_missing_amended
    ⟨.undef, .undef, .undef, .undef, .undef, .undef, .undef, .undef⟩ 0
  exact ⟨h1, (h34 rfl).1, (hl2 "01" .undef .undef .undef .undef .undef .undef).1,
    hother (by decide) (by decide) (by decide) (by decide)⟩

/-- C4: ingestion is idempotent — ingesting the same batch twice yields
the same stored row count and the same display name and geometry per
identifier as ingesting it once, and the keyed upsert never introduces a
duplicate identifier into a store whose identifiers are distinct. -/
theorem C4_ingest_idempotent (normGeom : String → String) (lvl : Int) (t1 t2 : Nat)
    (b : List Feat) (st : List Row) :
    (ingest normGeom t2 lvl b (ingest normGeom t1 lvl b st)).length
        = (ingest normGeom t1 lvl b st).length
    ∧ (∀ k, (getRow (ingest normGeom t2 lvl b (ingest normGeom t1 lvl b st)) k).map rowView
        = (getRow (ingest normGeom t1 lvl b st) k).map rowView)
    ∧ ((keys st).Nodup → (keys (ingest normGeom t1 lvl b st)).Nodup) := by
  refine ⟨?_, ?_, fun h => nodup_keys_ingest normGeom t1 lvl b st h⟩
  · exact length_ingest_all_mem normGeom t2 lvl b _ (batch_mem_keys_ingest normGeom t1 lvl b st)
  · intro k
    rw [getRow_ingest_view normGeom t2 lvl b _ k]
    cases hl : lastFeat k b with
    | none => simp [hl]
    | some f =>
        rw [getRow_ingest_view normGeom t1 lvl b st k]
        simp [hl]

/-- C4 witness: ingesting the one-feature batch for "11" twice into the
empty store keeps one row with the same name and geometry. -/
theorem C4_ingest_idempotent_witness :
    (ingest id 2 1 [⟨"11", "Aceh", "g"⟩] (ingest id 1 1 [⟨"11", "Aceh", "g"⟩] [])).length
        = (ingest id 1 1 [⟨"11", "Aceh", "g"⟩] []).length
    ∧ (getRow (ingest id 2 1 [⟨"11", "Aceh", "g"⟩]
          (ingest id 1 1 [⟨"11", "Aceh", "g"⟩] [])) "11").map rowView
        = (getRow (ingest id 1 1 [⟨"11", "Aceh", "g"⟩] []) "11").map rowView
    ∧ (keys (ingest id 1 1 [⟨"11", "Aceh", "g"⟩] [])).Nodup := by
  obtain ⟨h1, h2, h3⟩ := C4_ingest_idempotent id 1 1 2 [⟨"11", "Aceh", "g"⟩] []
  exact ⟨h1, h2 "11", h3 (by decide)⟩

/-- C8: an upsert on a present identifier overwrites only the display
name, the geometry and updatedAt, keeping the row's identifier, level and
createdAt; rows under other identifiers are untouched; and an upsert on
an absent identifier appends a new row. -/
theorem C8_upsert_frame (normGeom : String → String) (now : Nat) (k n : String) (lvl : Int)
    (g : String) (st : List Row) :
    (∀ r, getRow st k = some r →
        getRow (upsert_wilayah normGeom now k n lvl g st) k
          = some ⟨r.kode, n, r.level, normGeom g, r.createdAt, now⟩)
    ∧ (∀ k', k' ≠ k →
        getRow (upsert_wilayah normGeom now k n lvl g st) k' = getRow st k')
    ∧ (getRow st k = none →
        upsert_wilayah normGeom now k n lvl g st = st ++ [⟨k, n, lvl, normGeom g, now, now⟩]) :=
  ⟨fun r h => getRow_upsert_present normGeom now k n lvl g st r h,
   fun k' h => getRow_upsert_ne normGeom now k n lvl g st k' h,
   fun h => upsert_absent normGeom now k n lvl g st ((getRow_none_iff st k).mp h)⟩

/-- C8 witness: updating "11" in a one-row store rewrites name, geometry
and updatedAt while keeping createdAt; a lookup of "12" is unchanged; and
upserting the absent "12" appends a row. -/
theorem C8_upsert_frame_witness :
    getRow (upsert_wilayah id 7 "11" "Aceh Baru" 1 "g1" [⟨"11", "Aceh", 1, "g0", 5, 5⟩]) "11"
      = some ⟨"11", "Aceh Baru", 1, "g1", 5, 7⟩
    ∧ getRow (upsert_wilayah id 7 "11" "Aceh Baru" 1 "g1" [⟨"11", "Aceh", 1, "g0", 5, 5⟩]) "12"
      = getRow [⟨"11", "Aceh", 1, "g0", 5, 5⟩] "12"
    ∧ upsert_wilayah id 7 "12" "Sumut" 1 "g2" [⟨"11", "Aceh", 1, "g0", 5, 5⟩]
      = [⟨"11", "Aceh", 1, "g0", 5, 5⟩] ++ [⟨"12", "Sumut", 1, "g2", 7, 7⟩] := by
  refine ⟨?_, ?_, ?_⟩
  · exact (C8_upsert_frame id 7 "11" "Aceh Baru" 1 "g1" [⟨"11", "Aceh", 1, "g0", 5, 5⟩]).1
      ⟨"11", "Aceh", 1, "g0", 5, 5⟩ (by decide)
  · exact (C8_upsert_frame id 7 "11" "Aceh Baru" 1 "g1"
      [⟨"11", "Aceh", 1, "g0", 5, 5⟩]).2.1 "12" (by decide)
  · exact (C8_upsert_frame id 7 "12" "Sumut" 1 "g2"
      [⟨"11", "Aceh", 1, "g0", 5, 5⟩]).2.2 (by decide)

/-- Helper: a populated bundle slot carries exactly the fetched rows. -/
theorem toSlot_eq_some (X rows : List GeoRow) (h : toSlot X = some rows) : rows = X := by
  unfold toSlot at h
  split at h
  · exact (Option.some.inj h).symm
  · cases h

/-- Helper: membership in a fetchGeoData result forces the plain string
prefix and the level filter. -/
theorem mem_fetchGeoData_pfx (st : List Row) (l : Int) (p : String) (r : GeoRow)
    (h : r ∈ fetchGeoData st l p) : strIsPfxOf p r.id = true := by
  rcases List.mem_map.mp h with ⟨row, hrow, hback⟩
  have hf := List.mem_filter.mp hrow
  have hp : _ = true := hf.2
  rw [Bool.and_eq_true] at hp
  rw [← hback]
  exact hp.2

/-- Helper: membership in a LIKE-kind fetch of the older server forces the
separator-suffixed prefix. -/
theorem mem_fetch000_like (st : List Row) (lvl : Int) (pat : String) (r : GeoRow)
    (h : r ∈ fetch000 st lvl .like pat) : strIsPfxOf pat r.id = true := by
  rcases List.mem_map.mp h with ⟨row, hrow, hback⟩
  have hf := List.mem_filter.mp hrow
  have hp : _ = true := hf.2
  rw [Bool.and_eq_true] at hp
  rw [← hback]
  exact hp.2

/-- C5: the direct-Postgres and the Supabase implementations of the store
operations — feature upsert, level-filtered prefix fetch, and search —
produce identical logical results on identical inputs and store contents,
with no difference in capping or filtering. -/
theorem C5_store_equivalence (normGeom : String → String) (now : Nat) (k n : String)
    (lvl : Int) (g : String) (st : List Row) (p q : String) :
    upsertFeaturePg normGeom now k n lvl g st = upsert_wilayah normGeom now k n lvl g st
    ∧ fetchGeoData st lvl p = get_wilayah_by_level st lvl (some p)
    ∧ searchPg st q = search_wilayah st q :=
  ⟨rfl, rfl, rfl⟩

/-- C10: a missing search query or one shorter than 3 characters yields
the empty list with no store query; a present query of length at least 3
reaches the case-insensitive substring lookup. -/
theorem C10_search_gate (st : List Row) (q : Option String) :
    (q = none → apiSearch st q = ([], false))
    ∧ (∀ s, q = some s → s.length < 3 → apiSearch st q = ([], false))
    ∧ (∀ s, q = some s → 3 ≤ s.length → apiSearch st q = (searchPg st s, true)) := by
  refine ⟨?_, ?_, ?_⟩
  · intro h; subst h; rfl
  · intro s h hlt; subst h; simp [apiSearch, hlt]
  · intro s h hge; subst h; simp [apiSearch, Nat.not_lt.mpr hge]

/-- C10 witness: a missing query, the short query "ab", and the query
"ace" against the empty store. -/
theorem C10_search_gate_witness :
    apiSearch [] none = ([], false)
    ∧ apiSearch [] (some "ab") = ([], false)
    ∧ apiSearch [] (some "ace") = (searchPg [] "ace", true) :=
  ⟨(C10_search_gate [] none).1 rfl,
   (C10_search_gate [] (some "ab")).2.1 "ab" rfl (by decide),
   (C10_search_gate [] (some "ace")).2.2 "ace" rfl (by decide)⟩

/-- C9: a query code whose character length is not 2, not 5, not 8 and
below 13 — such as the unpadded 3-segment "11.1.05" of length 7 — makes
both servers' hierarchy routes return the all-null bundle and issue no
store fetch: depth classification is by raw character length, not by
counting dot-separated segments. -/
theorem C9_irregular_length (st : List Row) (code : String)
    (h2 : code.length ≠ 2) (h5 : code.length ≠ 5) (h8 : code.length ≠ 8)
    (h13 : code.length < 13) :
    compose001 st code = emptyBundle ∧ plan001 code = []
    ∧ compose000 st code = emptyBundle ∧ plan000 code = [] := by
  have hn13 : ¬ (13 ≤ code.length) := Nat.not_le.mpr h13
  refine ⟨?_, ?_, ?_, ?_⟩ <;>
    simp [compose001, plan001, compose000, plan000, h2, h5, h8, hn13]

/-- C9 witness: the length-7 code "11.1.05" against a store that even
contains a row under that identifier. -/
theorem C9_irregular_length_witness :
    compose001 [⟨"11.1.05", "X", 3, "g", 0, 0⟩] "11.1.05" = emptyBundle
    ∧ plan001 "11.1.05" = []
    ∧ compose000 [⟨"11.1.05", "X", 3, "g", 0, 0⟩] "11.1.05" = emptyBundle
    ∧ plan000 "11.1.05" = [] :=
  C9_irregular_length [⟨"11.1.05", "X", 3, "g", 0, 0⟩] "11.1.05"
    (by decide) (by decide) (by decide) (by decide)

/-- C2 counterexample: the newer server's children fetches are plain
string-prefix matches — its level-2 children fetch for "11" returns the
stored region "11.010"-like identifier "110.05" although "110.05" does
not continue "11" with the separator; and the underlying fetch for prefix
"11.1" returns "11.10" although "11.10" does not continue "11.1" with the
separator. -/
theorem C2_cex :
    (compose001 [⟨"110.05", "Weird", 2, "g", 0, 0⟩] "11").kabupaten
      = some [⟨"110.05", "Weird", "g"⟩]
    ∧ strIsPfxOf "11." "110.05" = false
    ∧ fetchGeoData [⟨"11.10", "X", 2, "g", 0, 0⟩] 2 "11.1" = [⟨"11.10", "X", "g"⟩]
    ∧ strIsPfxOf "11.1." "11.10" = false := by
  refine ⟨by decide, by decide, by decide, by decide⟩

/-- C2 (amended): children fetches in the newer server (and the SQL RPC)
match on the raw query code as a plain string prefix, with no separator
added, so they can return regions not separated by "." from the query
code; the older server's children fetches append the separator to the
code before prefix matching and are therefore separator-aware. -/
theorem C2_prefix_amended (st : List Row) :
    (∀ (l : Int) (p : String) (r : GeoRow),
        r ∈ fetchGeoData st l p → strIsPfxOf p r.id = true)
    ∧ (∀ (code : String) (rows : List GeoRow) (r : GeoRow), code.length = 2 →
        (compose000 st code).kabupaten = some rows → r ∈ rows →
        strIsPfxOf (code ++ ".") r.id = true) := by
  constructor
  · intro l p r hr
    exact mem_fetchGeoData_pfx st l p r hr
  · intro code rows r hlen hslot hr
    have hb : (compose000 st code).kabupaten
        = toSlot (fetch000 st 2 .like (code ++ ".")) := by
      simp [compose000, hlen]
    rw [hb] at hslot
    have hrows := toSlot_eq_some _ _ hslot
    exact mem_fetch000_like st 2 (code ++ ".") r (hrows ▸ hr)

/-- C2 amended witness: the store holding only "11.10" at level 2, the
raw fetch with prefix "11.1", and the older server's children query for
"11". -/
theorem C2_prefix_amended_witness :
    strIsPfxOf "11.1" ((⟨"11.10", "X", "g"⟩ : GeoRow).id) = true
    ∧ strIsPfxOf ("11" ++ ".") ((⟨"11.10", "X", "g"⟩ : GeoRow).id) = true := by
  have h := C2_prefix_amended [⟨"11.10", "X", 2, "g", 0, 0⟩]
  exact ⟨h.1 2 "11.1" ⟨"11.10", "X", "g"⟩ (by decide),
    h.2 "11" [⟨"11.10", "X", "g"⟩] ⟨"11.10", "X", "g"⟩ (by decide) (by decide) (by decide)⟩

/-- C3 counterexample: in the newer server the level-2 parent-context
fetch for "11.01.05" is a prefix match, not an exact match — a stored
level-2 region "11.010" is returned although its identifier differs from
the first-2-segments truncation "11.01". -/
theorem C3_cex :
    (compose001 [⟨"11.010", "Weird", 2, "g", 0, 0⟩] "11.01.05").kabupaten
      = some [⟨"11.010", "Weird", "g"⟩]
    ∧ ("11.010" : String) ≠ "11.01" := by
  refine ⟨by decide, by decide⟩

/-- C3 (amended): both servers classify the query identifier by length
and fetch exactly the claimed levels with the claimed codes; the older
server fetches self and parent context by exact match and children by
separator-suffixed prefix match, while the newer server issues every
fetch — self, context and children — as a plain prefix match on the same
codes (context being the first 2 resp. 3 segments). -/
theorem C3_fetch_plans_amended :
    plan000 "11" = [(1, .exact, "11"), (2, .like, "11.")]
    ∧ plan000 "11.01" = [(2, .exact, "11.01"), (3, .like, "11.01."), (4, .like, "11.01.")]
    ∧ plan000 "11.01.05"
        = [(2, .exact, "11.01"), (3, .exact, "11.01.05"), (4, .like, "11.01.05.")]
    ∧ plan000 "11.01.05.2003" = [(3, .exact, "11.01.05"), (4, .exact, "11.01.05.2003")]
    ∧ plan001 "11" = [(1, "11"), (2, "11")]
    ∧ plan001 "11.01" = [(2, "11.01"), (3, "11.01"), (4, "11.01")]
    ∧ plan001 "11.01.05" = [(2, "11.01"), (3, "11.01.05"), (4, "11.01.05")]
    ∧ plan001 "11.01.05.2003" = [(3, "11.01.05"), (4, "11.01.05.2003")] := by
  refine ⟨?_, ?_, ?_, ?_, ?_, ?_, ?_, ?_⟩ <;> decide

/-- Helper: binding a successful fetch continues with its rows. -/
theorem ok_bind {α β : Type} (a : α) (f : α → Except Unit β) :
    (Except.ok a >>= f) = f a := rfl

/-- Helper: binding a failed fetch short-circuits. -/
theorem err_bind {α β : Type} (f : α → Except Unit β) :
    ((Except.error () : Except Unit α) >>= f) = .error () := rfl

/-- Helper: each slot of the Supabase-mode bundle is determined solely by
the one fetch of its own level in the route's plan. -/
theorem slotAt_composeSb (fetch : Int → String → Except Unit (List GeoRow)) (code : String)
    (l' : Int) :
    slotAt (composeSb fetch code) l'
      = match (plan001 code).find? (fun q => q.1 == l') with
        | some q => toSlot (sbRows (fetch q.1 q.2))
        | none => none := by
  by_cases hn2 : code.length = 2
  · by_cases h1 : l' = 1
    · subst h1; simp [composeSb, plan001, slotAt, hn2, List.find?]
    · by_cases h2 : l' = 2
      · subst h2; simp [composeSb, plan001, slotAt, hn2, List.find?]
      · have e1 : ((1 : Int) == l') = false := by simp [Ne.symm h1]
        have e2 : ((2 : Int) == l') = false := by simp [Ne.symm h2]
        simp [composeSb, plan001, slotAt, hn2, List.find?, e1, e2, h1, h2]
  · by_cases hn5 : code.length = 5
    · by_cases h2 : l' = 2
      · subst h2; simp [composeSb, plan001, slotAt, hn2, hn5, List.find?]
      · by_cases h3 : l' = 3
        · subst h3; simp [composeSb, plan001, slotAt, hn2, hn5, List.find?]
        · by_cases h4 : l' = 4
          · subst h4; simp [composeSb, plan001, slotAt, hn2, hn5, List.find?]
          · have e2 : ((2 : Int) == l') = false := by simp [Ne.symm h2]
            have e3 : ((3 : Int) == l') = false := by simp [Ne.symm h3]
            have e4 : ((4 : Int) == l') = false := by simp [Ne.symm h4]
            simp [composeSb, plan001, slotAt, hn2, hn5, List.find?, e2, e3, e4, h2, h3, h4]
    · by_cases hn8 : code.length = 8
      · by_cases h2 : l' = 2
        · subst h2; simp [composeSb, plan001, slotAt, hn2, hn5, hn8, List.find?]
        · by_cases h3 : l' = 3
          · subst h3; simp [composeSb, plan001, slotAt, hn2, hn5, hn8, List.find?]
          · by_cases h4 : l' = 4
            · subst h4; simp [composeSb, plan001, slotAt, hn2, hn5, hn8, List.find?]
            · have e2 : ((2 : Int) == l') = false := by simp [Ne.symm h2]
              have e3 : ((3 : Int) == l') = false := by simp [Ne.symm h3]
              have e4 : ((4 : Int) == l') = false := by simp [Ne.symm h4]
              simp [composeSb, plan001, slotAt, hn2, hn5, hn8, List.find?,
                e2, e3, e4, h2, h3, h4]
      · by_cases hn13 : 13 ≤ code.length
        · by_cases h3 : l' = 3
          · subst h3; simp [composeSb, plan001, slotAt, hn2, hn5, hn8, hn13, List.find?]
          · by_cases h4 : l' = 4
            · subst h4; simp [composeSb, plan001, slotAt, hn2, hn5, hn8, hn13, List.find?]
            · have e3 : ((3 : Int) == l') = false := by simp [Ne.symm h3]
              have e4 : ((4 : Int) == l') = false := by simp [Ne.symm h4]
              simp [composeSb, plan001, slotAt, hn2, hn5, hn8, hn13, List.find?,
                e3, e4, h3, h4]
        · simp [composeSb, plan001, slotAt, hn2, hn5, hn8, hn13, List.find?, emptyBundle]

/-- C6 counterexample: in Postgres mode a single failed fetch aborts the
whole composition — with only the level-1 query failing and the level-2
query succeeding with a row, the route for "11" returns the store error
instead of a bundle whose level-2 slot is filled. -/
theorem C6_cex :
    composePg fetchOneFail "11" = .error ()
    ∧ fetchOneFail 2 "11" = .ok [⟨"11.01", "ACEH SELATAN", "g"⟩]
    ∧ (2, "11") ∈ plan001 "11" := by
  refine ⟨rfl, rfl, by decide⟩

/-- C6 (amended): in Postgres mode the fetches are awaited sequentially
and the failure of any one fetch of the route's plan aborts the whole
composition with the store error; in Supabase mode an RPC error is
absorbed per fetch — when every planned fetch fails the route still
answers the empty bundle rather than an error, and changing (for example
failing) the fetches of one level never affects the slots of the other
levels. -/
theorem C6_fetch_independence_amended
    (fetch fetch' : Int → String → Except Unit (List GeoRow)) (code : String) (l : Int) :
    (∀ (l0 : Int) (p : String), (l0, p) ∈ plan001 code → fetch l0 p = .error () →
        composePg fetch code = .error ())
    ∧ ((∀ (l0 : Int) (p : String), (l0, p) ∈ plan001 code → fetch l0 p = .error ()) →
        composeSb fetch code = emptyBundle)
    ∧ ((∀ (l0 : Int) (p : String), l0 ≠ l → fetch' l0 p = fetch l0 p) →
        ∀ l0, l0 ≠ l → slotAt (composeSb fetch' code) l0 = slotAt (composeSb fetch code) l0) := by
  refine ⟨?_, ?_, ?_⟩
  · intro l0 p hmem hf
    by_cases hn2 : code.length = 2
    · simp [plan001, hn2] at hmem
      rcases hmem with ⟨hl0, hp⟩ | ⟨hl0, hp⟩
      · subst hl0; rw [hp] at hf
        simp only [composePg]
        rw [if_pos hn2, hf, err_bind]
      · subst hl0; rw [hp] at hf
        simp only [composePg]
        rw [if_pos hn2]
        cases h1 : fetch 1 code with
        | error e => cases e; rw [err_bind]
        | ok r1 => rw [ok_bind]; rw [hf, err_bind]
    · by_cases hn5 : code.length = 5
      · simp [plan001, hn2, hn5] at hmem
        rcases hmem with ⟨hl0, hp⟩ | ⟨hl0, hp⟩ | ⟨hl0, hp⟩
        · subst hl0; rw [hp] at hf
          simp only [composePg]
          rw [if_neg hn2, if_pos hn5, hf, err_bind]
        · subst hl0; rw [hp] at hf
          simp only [composePg]
          rw [if_neg hn2, if_pos hn5]
          cases h1 : fetch 2 code with
          | error e => cases e; rw [err_bind]
          | ok r1 => rw [ok_bind]; rw [hf, err_bind]
        · subst hl0; rw [hp] at hf
          simp only [composePg]
          rw [if_neg hn2, if_pos hn5]
          cases h1 : fetch 2 code with
          | error e => cases e; rw [err_bind]
          | ok r1 =>
              rw [ok_bind]
              cases h2 : fetch 3 code with
              | error e => cases e; rw [err_bind]
              | ok r2 => rw [ok_bind]; rw [hf, err_bind]
      · by_cases hn8 : code.length = 8
        · simp [plan001, hn2, hn5, hn8] at hmem
          rcases hmem with ⟨hl0, hp⟩ | ⟨hl0, hp⟩ | ⟨hl0, hp⟩
          · subst hl0; rw [hp] at hf
            simp only [composePg]
            rw [if_neg hn2, if_neg hn5, if_pos hn8, hf, err_bind]
          · subst hl0; rw [hp] at hf
            simp only [composePg]
            rw [if_neg hn2, if_neg hn5, if_pos hn8]
            cases h1 : fetch 2 (code.take 5) with
            | error e => cases e; rw [err_bind]
            | ok r1 => rw [ok_bind]; rw [hf, err_bind]
          · subst hl0; rw [hp] at hf
            simp only [composePg]
            rw [if_neg hn2, if_neg hn5, if_pos hn8]
            cases h1 : fetch 2 (code.take 5) with
            | error e => cases e; rw [err_bind]
            | ok r1 =>
                rw [ok_bind]
                cases h2 : fetch 3 code with
                | error e => cases e; rw [err_bind]
                | ok r2 => rw [ok_bind]; rw [hf, err_bind]
        · by_cases hn13 : 13 ≤ code.length
          · simp [plan001, hn2, hn5, hn8, hn13] at hmem
            rcases hmem with ⟨hl0, hp⟩ | ⟨hl0, hp⟩
            · subst hl0; rw [hp] at hf
              simp only [composePg]
              rw [if_neg hn2, if_neg hn5, if_neg hn8, if_pos hn13, hf, err_bind]
            · subst hl0; rw [hp] at hf
              simp only [composePg]
              rw [if_neg hn2, if_neg hn5, if_neg hn8, if_pos hn13]
              cases h1 : fetch 3 (code.take 8) with
              | error e => cases e; rw [err_bind]
              | ok r1 => rw [ok_bind]; rw [hf, err_bind]
          · simp [plan001, hn2, hn5, hn8, hn13] at hmem
  · intro hall
    by_cases hn2 : code.length = 2
    · have f1 := hall 1 code (by simp [plan001, hn2])
      have f2 := hall 2 code (by simp [plan001, hn2])
      simp [composeSb, hn2, f1, f2, sbRows, toSlot, emptyBundle]
    · by_cases hn5 : code.length = 5
      · have f2 := hall 2 code (by simp [plan001, hn2, hn5])
        have f3 := hall 3 code (by simp [plan001, hn2, hn5])
        have f4 := hall 4 code (by simp [plan001, hn2, hn5])
        simp [composeSb, hn2, hn5, f2, f3, f4, sbRows, toSlot, emptyBundle]
      · by_cases hn8 : code.length = 8
        · have f2 := hall 2 (code.take 5) (by simp [plan001, hn2, hn5, hn8])
          have f3 := hall 3 code (by simp [plan001, hn2, hn5, hn8])
          have f4 := hall 4 code (by simp [plan001, hn2, hn5, hn8])
          simp [composeSb, hn2, hn5, hn8, f2, f3, f4, sbRows, toSlot, emptyBundle]
        · by_cases hn13 : 13 ≤ code.length
          · have f3 := hall 3 (code.take 8) (by simp [plan001, hn2, hn5, hn8, hn13])
            have f4 := hall 4 code (by simp [plan001, hn2, hn5, hn8, hn13])
            simp [composeSb, hn2, hn5, hn8, hn13, f3, f4, sbRows, toSlot, emptyBundle]
          · simp [composeSb, hn2, hn5, hn8, hn13, emptyBundle]
  · intro hagree l0 hl0
    rw [slotAt_composeSb fetch' code l0, slotAt_composeSb fetch code l0]
    cases hq : (plan001 code).find? (fun q => q.1 == l0) with
    | none => rfl
    | some q =>
        have hq1 : q.1 = l0 := by simpa using List.find?_some hq
        show toSlot (sbRows (fetch' q.1 q.2)) = toSlot (sbRows (fetch q.1 q.2))
        rw [hagree q.1 q.2 (by rw [hq1]; exact hl0)]

/-- C6 amended witness: the all-failing store call on query "11" — the
Postgres route errors, the Supabase route answers the empty bundle, and
its level-2 slot is independent of the level-1 fetches. -/
theorem C6_fetch_independence_amended_witness :
    composePg fetchAllFail "11" = .error ()
    ∧ composeSb fetchAllFail "11" = emptyBundle
    ∧ slotAt (composeSb fetchAllFail "11") 2 = slotAt (composeSb fetchAllFail "11") 2 := by
  obtain ⟨h1, h2, h3⟩ := C6_fetch_independence_amended fetchAllFail fetchAllFail "11" 1
  exact ⟨h1 1 "11" (by decide) rfl, h2 (fun l0 p _ => rfl), h3 (fun _ _ _ => rfl) 2 (by decide)⟩

end WilayahAceh
